import Mathlib

/-!
Shallow embedding of the constraint-resolution subsystem of
SimToolbox (src/Sylinder/SylinderSystem.cpp, src/Constraint/ConstraintSolver.hpp).

Scalars are embedded as an arbitrary linear ordered field `K` standing for
the C++ `double` (concrete evaluations use `K = ℚ`; claims needing
`sqrt`, `log`, `exp`, `π` are stated at `K = ℝ`).
-/

/-- Three-component vector, mirroring Eigen `Evec3`. -/
structure Vec3 (K : Type) where
  x : K
  y : K
  z : K
deriving DecidableEq, Repr

instance (K : Type) [Add K] : Add (Vec3 K) where
  add v w := ⟨v.x + w.x, v.y + w.y, v.z + w.z⟩

instance (K : Type) [Sub K] : Sub (Vec3 K) where
  sub v w := ⟨v.x - w.x, v.y - w.y, v.z - w.z⟩

instance (K : Type) [Neg K] : Neg (Vec3 K) where
  neg v := ⟨-v.x, -v.y, -v.z⟩

instance (K : Type) [Mul K] : SMul K (Vec3 K) where
  smul a v := ⟨a * v.x, a * v.y, a * v.z⟩

instance (K : Type) [Zero K] : Zero (Vec3 K) where
  zero := ⟨0, 0, 0⟩

/-- Dot product of two `Vec3`; `Vec3.dot v v` is the Eigen squared norm. -/
def Vec3.dot {K : Type} [Mul K] [Add K] (v w : Vec3 K) : K :=
  v.x * w.x + v.y * w.y + v.z * w.z

/-- Unit quaternion, mirroring Eigen `Equatn` (w is the scalar part). -/
structure Quat (K : Type) where
  w : K
  x : K
  y : K
  z : K
deriving DecidableEq, Repr

/-- Action of a quaternion on the unit vector (0,0,1): this is the closed
form of the Eigen expression `ECmapq(sy.orientation) * Evec3(0, 0, 1)`
(`v + 2 w (u × v) + 2 u × (u × v)` evaluated at `v = (0,0,1)`), used by the
source to obtain the rod axis direction from its orientation. -/
def quatRotZ {K : Type} [CommRing K] (q : Quat K) : Vec3 K :=
  ⟨2 * (q.w * q.y + q.x * q.z), 2 * (q.y * q.z - q.w * q.x),
    1 - 2 * (q.x * q.x + q.y * q.y)⟩

/-- Link record carried by each sylinder: gids of the previous and next
body in the chain, `linkInvalid` when absent (the source sentinel
`GEO_INVALID_INDEX`; only compared for equality, its value is immaterial). -/
def linkInvalid : Int := -1

/-- Link data of a sylinder (`sy.link` in the source). -/
structure Link where
  prev : Int
  next : Int
deriving DecidableEq, Repr

/-- Read-only view of one sylinder (rod) as consumed by the
constraint-resolution routines of `SylinderSystem.cpp`. -/
structure Syl (K : Type) where
  gid : Int
  globalIndex : Int
  pos : Vec3 K
  orientation : Quat K
  radius : K
  length : K
  radiusCollision : K
  lengthCollision : K
  link : Link
deriving DecidableEq, Repr

/-- ConstraintBlock record (field subset used by the claims; the virial
`stress` field is set separately by `setStress` and is not modelled).
The constructor argument order in the source is
(delta0, gamma, gidI, gidJ, globalIndexI, globalIndexJ, normI, normJ,
posI, posJ, locI, locJ, oneSide[, kappa]).  The `kappa` default for the
13-argument constructor is modelled as `-1`: `ConstraintBlock.hpp` is not
part of the sources, and the spec says kappa is NONE for unilateral
contacts while `collectPairCollision` tests `kappa < 0` for unset. -/
structure CBlock (K : Type) where
  delta0 : K
  gamma : K
  gidI : Int
  gidJ : Int
  globalIndexI : Int
  globalIndexJ : Int
  normI : Vec3 K
  normJ : Vec3 K
  posI : Vec3 K
  posJ : Vec3 K
  locI : Vec3 K
  locJ : Vec3 K
  oneSide : Bool
  kappa : K
deriving DecidableEq, Repr

/-- Construction of one wall collision block, mirroring the
`emplace_back` argument list in `SylinderSystem::collectWallCollision`:
(phi0, -phi0, gid, gid+1, globalIndex, globalIndex+1, normI, 0,
colLoc - pos, 0, colLoc, (colLoc.x, colLoc.y, wallZ), oneSide = true). -/
def wallBlock {K : Type} [LinearOrderedField K] (phi0 : K) (colLoc : Vec3 K)
    (sy : Syl K) (nI : Vec3 K) (wallZ : K) : CBlock K :=
  { delta0 := phi0
    gamma := -phi0
    gidI := sy.gid
    gidJ := sy.gid + 1
    globalIndexI := sy.globalIndex
    globalIndexJ := sy.globalIndex + 1
    normI := nI
    normJ := 0
    posI := colLoc - sy.pos
    posJ := 0
    locI := colLoc
    locJ := ⟨colLoc.x, colLoc.y, wallZ⟩
    oneSide := true
    kappa := -1 }

/-- Lower endpoint of the collision segment of a rod,
`Pm = pos - direction * (lengthCollision * 0.5)` in the source. -/
def lowEndpoint {K : Type} [LinearOrderedField K] (sy : Syl K) : Vec3 K :=
  sy.pos - (sy.lengthCollision * (1 / 2)) • quatRotZ sy.orientation

/-- Upper endpoint of the collision segment of a rod,
`Pp = pos + direction * (lengthCollision * 0.5)` in the source. -/
def highEndpoint {K : Type} [LinearOrderedField K] (sy : Syl K) : Vec3 K :=
  sy.pos + (sy.lengthCollision * (1 / 2)) • quatRotZ sy.orientation

/-- Signed distance of the lower endpoint to the bottom wall
(`distm = Pm[2] - wallBot - sy.radius` in the source). -/
def distLowM {K : Type} [LinearOrderedField K] (wallBot : K) (sy : Syl K) : K :=
  (lowEndpoint sy).z - wallBot - sy.radius

/-- Signed distance of the upper endpoint to the bottom wall. -/
def distLowP {K : Type} [LinearOrderedField K] (wallBot : K) (sy : Syl K) : K :=
  (highEndpoint sy).z - wallBot - sy.radius

/-- Signed distance of the lower endpoint to the top wall
(`distm = wallTop - Pm[2] - sy.radius` in the source). -/
def distHighM {K : Type} [LinearOrderedField K] (wallTop : K) (sy : Syl K) : K :=
  wallTop - (lowEndpoint sy).z - sy.radius

/-- Signed distance of the upper endpoint to the top wall. -/
def distHighP {K : Type} [LinearOrderedField K] (wallTop : K) (sy : Syl K) : K :=
  wallTop - (highEndpoint sy).z - sy.radius

/-- Bottom-wall contact generation for one rod: the body of the
`runConfig.wallLowZ` loop of `SylinderSystem::collectWallCollision`.
Returns the block appended to the per-thread unilateral pool, or `none`
when `wallCollide` stays false. -/
def wallBlockLow {K : Type} [LinearOrderedField K] (wallBot : K) (sy : Syl K) :
    Option (CBlock K) :=
  if distLowM wallBot sy < distLowP wallBot sy ∧ distLowM wallBot sy < 0 then
    some (wallBlock (distLowM wallBot sy) (lowEndpoint sy) sy ⟨0, 0, 1⟩ wallBot)
  else if distLowM wallBot sy > distLowP wallBot sy ∧ distLowP wallBot sy < 0 then
    some (wallBlock (distLowP wallBot sy) (highEndpoint sy) sy ⟨0, 0, 1⟩ wallBot)
  else if distLowM wallBot sy = distLowP wallBot sy ∧ distLowM wallBot sy < 0 then
    some (wallBlock (distLowM wallBot sy)
      ((1 / 2 : K) • (lowEndpoint sy + highEndpoint sy)) sy ⟨0, 0, 1⟩ wallBot)
  else none

/-- Top-wall contact generation for one rod: the body of the
`runConfig.wallHighZ` loop of `SylinderSystem::collectWallCollision`. -/
def wallBlockHigh {K : Type} [LinearOrderedField K] (wallTop : K) (sy : Syl K) :
    Option (CBlock K) :=
  if distHighM wallTop sy < distHighP wallTop sy ∧ distHighM wallTop sy < 0 then
    some (wallBlock (distHighM wallTop sy) (lowEndpoint sy) sy ⟨0, 0, -1⟩ wallTop)
  else if distHighM wallTop sy > distHighP wallTop sy ∧ distHighP wallTop sy < 0 then
    some (wallBlock (distHighP wallTop sy) (highEndpoint sy) sy ⟨0, 0, -1⟩ wallTop)
  else if distHighM wallTop sy = distHighP wallTop sy ∧ distHighM wallTop sy < 0 then
    some (wallBlock (distHighM wallTop sy)
      ((1 / 2 : K) • (lowEndpoint sy + highEndpoint sy)) sy ⟨0, 0, -1⟩ wallTop)
  else none

/-- Wall configuration subset of `SylinderConfig` used by
`collectWallCollision`: the two enable flags and the z extents of the
simulation box. -/
structure WallCfg (K : Type) where
  wallLowZ : Bool
  wallHighZ : Bool
  simBoxLowZ : K
  simBoxHighZ : K
deriving DecidableEq, Repr

/-- Blocks produced for the chunk of rods handled by one worker thread:
first the bottom-wall loop (when enabled), then the top-wall loop,
in rod order, exactly as the two `omp for` loops emit them. -/
def wallBlocksOfChunk {K : Type} [LinearOrderedField K] (cfg : WallCfg K)
    (chunk : List (Syl K)) : List (CBlock K) :=
  (if cfg.wallLowZ then chunk.filterMap (wallBlockLow cfg.simBoxLowZ) else [])
    ++ (if cfg.wallHighZ then chunk.filterMap (wallBlockHigh cfg.simBoxHighZ) else [])

/-- Effect of `SylinderSystem::collectWallCollision` on one per-thread pool
of the unilateral collector: the new blocks of the thread chunk are
appended after the existing contents. -/
def collectWallOnPool {K : Type} [LinearOrderedField K] (cfg : WallCfg K)
    (chunk : List (Syl K)) (pool : List (CBlock K)) : List (CBlock K) :=
  pool ++ wallBlocksOfChunk cfg chunk

/-- Default-kappa fill-in applied by `SylinderSystem::collectPairCollision`
to every block of the bilateral pools: when `block.kappa < 0` (unset) the
code sets `block.kappa = runConfig.linkKappa` and then
`block.gamma = block.kappa * block.delta0`. -/
def fillInBiKappa {K : Type} [LinearOrderedField K] (linkKappa : K)
    (blk : CBlock K) : CBlock K :=
  if blk.kappa < 0 then
    { blk with kappa := linkKappa, gamma := linkKappa * blk.delta0 }
  else blk

/-- Names of the sub-routines and solver methods invoked by
`SylinderSystem::resolveConstraints`. -/
inductive RoutineCall where
  | collectPairCollision
  | collectWallCollision
  | collectLinkBilateral
  | setup
  | setControlParams
  | solveConstraints
  | writebackGamma
  | saveVelocityConstraints
deriving DecidableEq, Repr

/-- Invocation order inside `SylinderSystem::resolveConstraints`, read off
the function body: collectPairCollision, collectWallCollision, then
constraintSolverPtr->setup, ->setControlParams, ->solveConstraints,
->writebackGamma, finally saveVelocityConstraints.  The block that would
call `collectLinkBilateral` is commented out in the source. -/
def resolveConstraintsCalls : List RoutineCall :=
  [RoutineCall.collectPairCollision, RoutineCall.collectWallCollision,
   RoutineCall.setup, RoutineCall.setControlParams,
   RoutineCall.solveConstraints, RoutineCall.writebackGamma,
   RoutineCall.saveVelocityConstraints]

/-- Head of a rod, `Pp = center + direction * (0.5 * length)`: the linked
endpoint of body I in `collectLinkBilateral`. -/
def linkHead {K : Type} [LinearOrderedField K] (sy : Syl K) : Vec3 K :=
  sy.pos + ((1 / 2 : K) * sy.length) • quatRotZ sy.orientation

/-- Tail of a rod, `Qm = center - direction * (0.5 * length)`: the linked
endpoint of body J in `collectLinkBilateral`. -/
def linkTail {K : Type} [LinearOrderedField K] (sy : Syl K) : Vec3 K :=
  sy.pos - ((1 / 2 : K) * sy.length) • quatRotZ sy.orientation

/-- Near-data view of a sylinder fetched through the cross-rank data
directory (`SylinderNearEP`): the direction is stored directly rather
than as a quaternion. -/
structure SylNear (K : Type) where
  gid : Int
  globalIndex : Int
  pos : Vec3 K
  direction : Vec3 K
  radius : K
  length : K
deriving DecidableEq, Repr

/-- Linkage block built by step 1 of `SylinderSystem::collectLinkBilateral`
when the next body J is found on the local rank.  `sqrtFn` stands for the
floating point square root used by the Eigen `.norm()` call. -/
def linkBlockLocal {K : Type} [LinearOrderedField K] (sqrtFn : K → K)
    (kappa : K) (syI syJ : Syl K) : CBlock K :=
  let centerI := syI.pos
  let directionI := quatRotZ syI.orientation
  let Pp := centerI + ((1 / 2 : K) * syI.length) • directionI
  let centerJ := syJ.pos
  let directionJ := quatRotZ syJ.orientation
  let Qm := centerJ - ((1 / 2 : K) * syJ.length) • directionJ
  let Ploc := Pp
  let Qloc := Qm
  let vecIJ := Ploc - Qloc
  let dist := sqrtFn (Vec3.dot vecIJ vecIJ)
  let normI := (1 / dist) • vecIJ
  let normJ := -normI
  let posI := Ploc - centerI
  let posJ := Qloc - centerJ
  let sep := dist - (syI.radius + syJ.radius) * (105 / 100)
  let gamma := -sep * kappa
  { delta0 := sep
    gamma := gamma
    gidI := syI.gid
    gidJ := syJ.gid
    globalIndexI := syI.globalIndex
    globalIndexJ := syJ.globalIndex
    normI := normI
    normJ := normJ
    posI := posI
    posJ := posJ
    locI := Ploc
    locJ := Qloc
    oneSide := false
    kappa := kappa }

/-- Placeholder block emitted by step 1 of
`SylinderSystem::collectLinkBilateral` when J is not on the local rank;
`globalIndexJ = GEO_INVALID_INDEX` marks it for completion in step 2. -/
def linkBlockRemoteStub {K : Type} [LinearOrderedField K] (syI : Syl K) :
    CBlock K :=
  { delta0 := 0
    gamma := 0
    gidI := syI.gid
    gidJ := syI.link.next
    globalIndexI := syI.globalIndex
    globalIndexJ := linkInvalid
    normI := ⟨0, 0, 1⟩
    normJ := ⟨0, 0, 1⟩
    posI := ⟨0, 0, 1⟩
    posJ := ⟨0, 0, 1⟩
    locI := ⟨0, 0, 1⟩
    locJ := ⟨0, 0, 1⟩
    oneSide := false
    kappa := -1 }

/-- Linkage block built by step 2 of `SylinderSystem::collectLinkBilateral`
from the near-data of an off-rank J: the same computation as the local
branch, with the direction of J taken from the directory record. -/
def linkBlockRemote {K : Type} [LinearOrderedField K] (sqrtFn : K → K)
    (kappa : K) (syI : Syl K) (syNearJ : SylNear K) : CBlock K :=
  let centerI := syI.pos
  let directionI := quatRotZ syI.orientation
  let Pp := centerI + ((1 / 2 : K) * syI.length) • directionI
  let centerJ := syNearJ.pos
  let directionJ := syNearJ.direction
  let Qm := centerJ - ((1 / 2 : K) * syNearJ.length) • directionJ
  let Ploc := Pp
  let Qloc := Qm
  let vecIJ := Ploc - Qloc
  let dist := sqrtFn (Vec3.dot vecIJ vecIJ)
  let normI := (1 / dist) • vecIJ
  let normJ := -normI
  let posI := Ploc - centerI
  let posJ := Qloc - centerJ
  let sep := dist - (syI.radius + syNearJ.radius) * (105 / 100)
  let gamma := -sep * kappa
  { delta0 := sep
    gamma := gamma
    gidI := syI.gid
    gidJ := syNearJ.gid
    globalIndexI := syI.globalIndex
    globalIndexJ := syNearJ.globalIndex
    normI := normI
    normJ := normJ
    posI := posI
    posJ := posJ
    locI := Ploc
    locJ := Qloc
    oneSide := false
    kappa := kappa }

/-- Step 1 of `SylinderSystem::collectLinkBilateral` over the rods of one
thread chunk: bodies without a next link are skipped, bodies whose J is
found by the gid lookup get a full local block, the rest get a stub. -/
def collectLinkPass {K : Type} [LinearOrderedField K] (sqrtFn : K → K)
    (kappa : K) (lookup : Int → Option (Syl K)) (bodies : List (Syl K)) :
    List (CBlock K) :=
  bodies.filterMap fun syI =>
    if syI.link.next = linkInvalid then none
    else
      match lookup syI.link.next with
      | some syJ => some (linkBlockLocal sqrtFn kappa syI syJ)
      | none => some (linkBlockRemoteStub syI)

/-- Decimal constant `Pi = 3.14159265358979323846` defined at the top of
`SylinderSystem::calcMobMatrix` (the source uses this literal, not an
exact pi). -/
def piLit {K : Type} [LinearOrderedField K] : K :=
  314159265358979323846 / 100000000000000000000

/-- Slender-body geometry factor `b = -(1 + 2 * log(diameter * 0.5 / length))`
with `diameter = radius * 2`; `logFn` stands for the floating point `log`. -/
def bGeo {K : Type} [LinearOrderedField K] (logFn : K → K)
    (radius length : K) : K :=
  -(1 + 2 * logFn (radius * 2 * (1 / 2) / length))

/-- Parallel drag `dragPara = 8 * Pi * length * mu / (2 * b)`. -/
def dragPara {K : Type} [LinearOrderedField K] (logFn : K → K)
    (mu length radius : K) : K :=
  8 * piLit * length * mu / (2 * bGeo logFn radius length)

/-- Perpendicular drag `dragPerp = 8 * Pi * length * mu / (b + 2)`. -/
def dragPerp {K : Type} [LinearOrderedField K] (logFn : K → K)
    (mu length radius : K) : K :=
  8 * piLit * length * mu / (bGeo logFn radius length + 2)

/-- Rotational drag `dragRot = 2 * Pi * mu * length^3 / (3 * (b + 2))`. -/
def dragRot {K : Type} [LinearOrderedField K] (logFn : K → K)
    (mu length radius : K) : K :=
  2 * piLit * mu * length * length * length / (3 * (bGeo logFn radius length + 2))

/-- Inverse parallel drag, `1 / dragPara`. -/
def dragParaInv {K : Type} [LinearOrderedField K] (logFn : K → K)
    (mu length radius : K) : K :=
  1 / dragPara logFn mu length radius

/-- Inverse perpendicular drag, `1 / dragPerp`. -/
def dragPerpInv {K : Type} [LinearOrderedField K] (logFn : K → K)
    (mu length radius : K) : K :=
  1 / dragPerp logFn mu length radius

/-- Inverse rotational drag, `1 / dragRot`. -/
def dragRotInv {K : Type} [LinearOrderedField K] (logFn : K → K)
    (mu length radius : K) : K :=
  1 / dragRot logFn mu length radius

/-- View of a `Vec3` as a function on `Fin 3`, for matrix constructions. -/
def vecFun {K : Type} (v : Vec3 K) : Fin 3 → K := ![v.x, v.y, v.z]

/-- Outer product `qq = q * q^T` of the rod axis with itself. -/
def qqOf {K : Type} [CommRing K] (q : Vec3 K) : Matrix (Fin 3) (Fin 3) K :=
  Matrix.vecMulVec (vecFun q) (vecFun q)

/-- Translational mobility block
`MobTrans = dragParaInv * qq + dragPerpInv * (I - qq)` of one rod, as
assembled by `SylinderSystem::calcMobMatrix`. -/
def MobTrans {K : Type} [LinearOrderedField K] (logFn : K → K)
    (mu length radius : K) (q : Vec3 K) : Matrix (Fin 3) (Fin 3) K :=
  dragParaInv logFn mu length radius • qqOf q
    + dragPerpInv logFn mu length radius • (1 - qqOf q)

/-- Rotational mobility block
`MobRot = dragRotInv * qq + dragRotInv * (I - qq)` of one rod, as
assembled by `SylinderSystem::calcMobMatrix`. -/
def MobRot {K : Type} [LinearOrderedField K] (logFn : K → K)
    (mu length radius : K) (q : Vec3 K) : Matrix (Fin 3) (Fin 3) K :=
  dragRotInv logFn mu length radius • qqOf q
    + dragRotInv logFn mu length radius • (1 - qqOf q)

/-- Row-pointer array of the mobility matrix: `rowPointers[0] = 0` and
`rowPointers[i] = rowPointers[i-1] + 3` (three stored entries per row). -/
def rowPointers : Nat → Nat
  | 0 => 0
  | n + 1 => rowPointers n + 3

/-- Column indices of the 18 stored entries of rod `i`, exactly the 18
assignments `columnIndices[18*i + k] = ...` of `calcMobMatrix`. -/
def mobColIdx (i : Nat) (k : Fin 18) : Nat :=
  match (k : Nat) with
  | 0 => 6 * i
  | 1 => 6 * i + 1
  | 2 => 6 * i + 2
  | 3 => 6 * i
  | 4 => 6 * i + 1
  | 5 => 6 * i + 2
  | 6 => 6 * i
  | 7 => 6 * i + 1
  | 8 => 6 * i + 2
  | 9 => 6 * i + 3
  | 10 => 6 * i + 4
  | 11 => 6 * i + 5
  | 12 => 6 * i + 3
  | 13 => 6 * i + 4
  | 14 => 6 * i + 5
  | 15 => 6 * i + 3
  | 16 => 6 * i + 4
  | _ => 6 * i + 5

/-- Stored values of the 18 entries of one rod, exactly the 18
assignments `values[18*i + k] = ...` of `calcMobMatrix`. -/
def mobValues {K : Type} [LinearOrderedField K] (logFn : K → K)
    (mu length radius : K) (q : Vec3 K) : Fin 18 → K :=
  let MT := MobTrans logFn mu length radius q
  let MR := MobRot logFn mu length radius q
  ![MT 0 0, MT 0 1, MT 0 2,
    MT 1 0, MT 1 1, MT 1 2,
    MT 2 0, MT 2 1, MT 2 2,
    MR 0 0, MR 0 1, MR 0 2,
    MR 1 0, MR 1 1, MR 1 2,
    MR 2 0, MR 2 1, MR 2 2]

/-- Entry slots 0..8 of a rod hold its translational block. -/
def transSlot (k : Fin 9) : Fin 18 := ⟨(k : Nat), by omega⟩

/-- Entry slots 9..17 of a rod hold its rotational block. -/
def rotSlot (k : Fin 9) : Fin 18 := ⟨(k : Nat) + 9, by omega⟩

/-- Row of a 3x3 block addressed by entry slot `k` (row-major). -/
def slotRow (k : Fin 9) : Fin 3 := ⟨(k : Nat) / 3, by omega⟩

/-- Column of a 3x3 block addressed by entry slot `k` (row-major). -/
def slotCol (k : Fin 9) : Fin 3 := ⟨(k : Nat) % 3, by omega⟩

/-- Gid assigned by `SylinderSystem::addNewSylinder` to the new sylinder in
global slot `k`: rank 0 shuffles `iota(0..n-1)` into a permutation
`sigma`, the ids are scattered to the ranks in disjoint contiguous
chunks (`MPI_Scatterv` with cumulative-sum displacements), and each new body
gets `gid = newIDRecv[i] + 1 + maxGidGlobal`. -/
def newGid (n : Nat) (sigma : Equiv.Perm (Fin n)) (maxGidGlobal : Int)
    (k : Fin n) : Int :=
  ((sigma k : Nat) : Int) + 1 + maxGidGlobal

/-- Fixture rod: identity orientation (axis +z), radius 1, collision
length 2, centred at the origin; its lower endpoint is at z = -1, one
unit below a bottom wall at z = 0. -/
def syW : Syl ℚ :=
  { gid := 3
    globalIndex := 7
    pos := ⟨0, 0, 0⟩
    orientation := ⟨1, 0, 0, 0⟩
    radius := 1
    length := 2
    radiusCollision := 1
    lengthCollision := 2
    link := ⟨linkInvalid, linkInvalid⟩ }

/-- Block emitted for `syW` by the bottom-wall loop with wall at z = 0:
lower endpoint (0,0,-1), signed distance -2. -/
def blkW : CBlock ℚ := wallBlock (-2) ⟨0, 0, -1⟩ syW ⟨0, 0, 1⟩ 0

/-- Boundary fixture rod: identical to `syW` but centred at z = 2, so its
lower endpoint signed distance to a bottom wall at z = 0 is exactly 0. -/
def syB : Syl ℚ :=
  { gid := 5
    globalIndex := 9
    pos := ⟨0, 0, 2⟩
    orientation := ⟨1, 0, 0, 0⟩
    radius := 1
    length := 2
    radiusCollision := 1
    lengthCollision := 2
    link := ⟨linkInvalid, linkInvalid⟩ }

/-- Fixture bilateral block with unset spring constant (`kappa = -1`) and
unit positive gap, as the pair-collision functor would emit it into the
bilateral pool before the fill-in loop of `collectPairCollision` runs. -/
def biBlockUnset : CBlock ℚ :=
  { delta0 := 1
    gamma := -1
    gidI := 11
    gidJ := 12
    globalIndexI := 11
    globalIndexJ := 12
    normI := ⟨0, 0, 1⟩
    normJ := ⟨0, 0, -1⟩
    posI := 0
    posJ := 0
    locI := 0
    locJ := 0
    oneSide := false
    kappa := -1 }

/-- Componentwise form of `Vec3` addition. -/
@[simp]
theorem Vec3.add_def {K : Type} [Add K] (v w : Vec3 K) :
    v + w = ⟨v.x + w.x, v.y + w.y, v.z + w.z⟩ := rfl

/-- Componentwise form of `Vec3` subtraction. -/
@[simp]
theorem Vec3.sub_def {K : Type} [Sub K] (v w : Vec3 K) :
    v - w = ⟨v.x - w.x, v.y - w.y, v.z - w.z⟩ := rfl

/-- Componentwise form of `Vec3` negation. -/
@[simp]
theorem Vec3.neg_def {K : Type} [Neg K] (v : Vec3 K) :
    -v = ⟨-v.x, -v.y, -v.z⟩ := rfl

/-- Componentwise form of the scalar action on `Vec3`. -/
@[simp]
theorem Vec3.smul_def {K : Type} [Mul K] (a : K) (v : Vec3 K) :
    a • v = ⟨a * v.x, a * v.y, a * v.z⟩ := rfl

/-- Components of the zero `Vec3`. -/
@[simp]
theorem Vec3.zero_def {K : Type} [Zero K] : (0 : Vec3 K) = ⟨0, 0, 0⟩ := rfl

/-- C1: divergence of the default-kappa fill-in of
`SylinderSystem::collectPairCollision` from the stated initial multiplier
rule.  On a bilateral block with unset kappa and gap 1, with
`linkKappa = 100`, the fill-in stores `gammaInit = +kappa * delta0 = 100`,
not `-kappa * delta0 = -100` as the spec states and as the parallel
linkage path `collectLinkBilateral` computes. -/
theorem fillInBiKappa_gamma_sign :
    (fillInBiKappa (100 : ℚ) biBlockUnset).kappa = 100
      ∧ (fillInBiKappa (100 : ℚ) biBlockUnset).gamma = 100
      ∧ (fillInBiKappa (100 : ℚ) biBlockUnset).gamma
          ≠ -((fillInBiKappa (100 : ℚ) biBlockUnset).kappa
              * (fillInBiKappa (100 : ℚ) biBlockUnset).delta0) := by
  refine ⟨?_, ?_, ?_⟩ <;> norm_num [fillInBiKappa, biBlockUnset]

/-- C2 (counterexample): `SylinderSystem::resolveConstraints` never invokes
`collectLinkBilateral` (the call is commented out in the source), so the
linkage-closure sub-routine does not run before `ConstraintSolver::setup`. -/
theorem resolveConstraints_no_link_collection :
    RoutineCall.collectLinkBilateral ∉ resolveConstraintsCalls := by decide

/-- C2 (amended): per step, the two unilateral contact-generation
sub-routines (rod-rod pair contacts and rod-wall contacts) run before
`ConstraintSolver::setup`; the bilateral linkage-closure sub-routine
`collectLinkBilateral` is not invoked at all, so no linkage bilateral
block is guaranteed to exist when setup runs. -/
theorem resolveConstraints_collect_order :
    List.indexOf RoutineCall.collectPairCollision resolveConstraintsCalls <
        List.indexOf RoutineCall.setup resolveConstraintsCalls
      ∧ List.indexOf RoutineCall.collectWallCollision resolveConstraintsCalls <
        List.indexOf RoutineCall.setup resolveConstraintsCalls
      ∧ RoutineCall.collectLinkBilateral ∉ resolveConstraintsCalls := by decide

/-- C3 (counterexample): in `SylinderSystem::resolveConstraints` the call
to `setControlParams` does not precede the call to `setup`: the source
invokes `setup` first and only then `setControlParams`. -/
theorem setControlParams_not_before_setup :
    ¬ (List.indexOf RoutineCall.setControlParams resolveConstraintsCalls <
        List.indexOf RoutineCall.setup resolveConstraintsCalls) := by decide

/-- C3 (amended): each step drives the solver in the order `setup`, then
`setControlParams`, then `solveConstraints`, then `writebackGamma`; in
particular the solver executes `setup` before it is configured by
`setControlParams`. -/
theorem solver_method_order :
    List.indexOf RoutineCall.setup resolveConstraintsCalls <
        List.indexOf RoutineCall.setControlParams resolveConstraintsCalls
      ∧ List.indexOf RoutineCall.setControlParams resolveConstraintsCalls <
        List.indexOf RoutineCall.solveConstraints resolveConstraintsCalls
      ∧ List.indexOf RoutineCall.solveConstraints resolveConstraintsCalls <
        List.indexOf RoutineCall.writebackGamma resolveConstraintsCalls := by decide

/-- C4 (counterexample): for the rod `syB` whose lower endpoint signed
distance to the bottom wall is exactly 0 (and upper distance 2), the two
distances are not both positive, yet `collectWallCollision` emits no
block: emission is not equivalent to the negation of both distances
being positive. -/
theorem wallBlockLow_boundary_no_emit :
    wallBlockLow (0 : ℚ) syB = none
      ∧ ¬ (0 < distLowM (0 : ℚ) syB ∧ 0 < distLowP (0 : ℚ) syB) := by
  constructor
  · norm_num [wallBlockLow, distLowM, distLowP, lowEndpoint, highEndpoint,
      quatRotZ, syB]
  · norm_num [distLowM, distLowP, lowEndpoint, highEndpoint, quatRotZ, syB]

/-- C8: wall-contact collection is deterministic and repeatable: running
`collectWallCollision` a second time on the same rod chunk and wall
settings appends to a per-thread pool exactly the same block sequence as
the first run appended. -/
theorem collectWallOnPool_repeat {K : Type} [LinearOrderedField K]
    (cfg : WallCfg K) (chunk : List (Syl K)) (pool : List (CBlock K)) :
    (collectWallOnPool cfg chunk (collectWallOnPool cfg chunk pool)).drop
        (collectWallOnPool cfg chunk pool).length
      = (collectWallOnPool cfg chunk pool).drop pool.length := by
  simp only [collectWallOnPool]
  rw [List.drop_left, List.drop_left]

/-- C10: `SylinderSystem::addNewSylinder` preserves gid uniqueness: with
`sigma` the shuffled permutation of `0..n-1` scattered over the ranks,
every new gid is strictly greater than the previous global maximum, the
assignment is injective (new gids are pairwise distinct across all
ranks), and every new gid lies in `maxGidGlobal+1 .. maxGidGlobal+n`. -/
theorem addNewSylinder_gid_unique (n : Nat) (sigma : Equiv.Perm (Fin n))
    (maxGid : Int) :
    (∀ k, maxGid < newGid n sigma maxGid k)
      ∧ Function.Injective (newGid n sigma maxGid)
      ∧ (∀ k, newGid n sigma maxGid k ≤ maxGid + n) := by
  refine ⟨fun k => ?_, fun k₁ k₂ h => ?_, fun k => ?_⟩
  · simp only [newGid]
    omega
  · simp only [newGid] at h
    have h2 : ((sigma k₁ : Nat) : Int) = ((sigma k₂ : Nat) : Int) := by omega
    have h3 : (sigma k₁ : Nat) = (sigma k₂ : Nat) := by exact_mod_cast h2
    exact sigma.injective (Fin.val_injective h3)
  · have hk : (sigma k : Nat) < n := (sigma k).isLt
    simp only [newGid]
    omega

/-- C4 (amended): for each enabled Z wall and every rod,
`collectWallCollision` emits a block if and only if the smaller endpoint
signed distance is strictly negative (when the smaller distance is
exactly zero no block is emitted); the emitted block has oneSide = true,
delta0 equal to the smaller signed distance, contact point the endpoint
with the smaller signed distance (the segment midpoint when the two are
exactly equal), normJ = 0, and normI = +z for the lower wall and -z for
the upper wall. -/
theorem wallCollision_emit_spec {K : Type} [LinearOrderedField K]
    (wallBot wallTop : K) (sy : Syl K) :
    ((wallBlockLow wallBot sy).isSome ↔
        min (distLowM wallBot sy) (distLowP wallBot sy) < 0)
      ∧ (∀ blk : CBlock K, wallBlockLow wallBot sy = some blk →
          blk.delta0 = min (distLowM wallBot sy) (distLowP wallBot sy)
            ∧ blk.oneSide = true ∧ blk.normJ = 0 ∧ blk.normI = ⟨0, 0, 1⟩
            ∧ blk.locI =
              (if distLowM wallBot sy < distLowP wallBot sy then lowEndpoint sy
               else if distLowP wallBot sy < distLowM wallBot sy then highEndpoint sy
               else (1 / 2 : K) • (lowEndpoint sy + highEndpoint sy)))
      ∧ ((wallBlockHigh wallTop sy).isSome ↔
          min (distHighM wallTop sy) (distHighP wallTop sy) < 0)
      ∧ (∀ blk : CBlock K, wallBlockHigh wallTop sy = some blk →
          blk.delta0 = min (distHighM wallTop sy) (distHighP wallTop sy)
            ∧ blk.oneSide = true ∧ blk.normJ = 0 ∧ blk.normI = ⟨0, 0, -1⟩
            ∧ blk.locI =
              (if distHighM wallTop sy < distHighP wallTop sy then lowEndpoint sy
               else if distHighP wallTop sy < distHighM wallTop sy then highEndpoint sy
               else (1 / 2 : K) • (lowEndpoint sy + highEndpoint sy))) := by
  refine ⟨?_, ?_, ?_, ?_⟩
  · unfold wallBlockLow
    split_ifs with h1 h2 h3
    · simpa using min_lt_iff.mpr (Or.inl h1.2)
    · simpa using min_lt_iff.mpr (Or.inr h2.2)
    · simpa using min_lt_iff.mpr (Or.inl h3.2)
    · push_neg at h1 h2 h3
      simp only [Option.isSome_none, Bool.false_eq_true, false_iff, not_lt,
        le_min_iff]
      rcases lt_trichotomy (distLowM wallBot sy) (distLowP wallBot sy) with h | h | h
      · have := h1 h; constructor <;> linarith
      · have := h3 h; constructor <;> linarith
      · have := h2 h; constructor <;> linarith
  · intro blk h
    unfold wallBlockLow at h
    split_ifs at h with h1 h2 h3 <;> rw [Option.some.injEq] at h <;> subst h
    · exact ⟨(min_eq_left h1.1.le).symm, rfl, rfl, rfl, by rw [if_pos h1.1]; rfl⟩
    · exact ⟨(min_eq_right h2.1.le).symm, rfl, rfl, rfl,
        by rw [if_neg (not_lt.mpr h2.1.le), if_pos h2.1]; rfl⟩
    · exact ⟨(min_eq_left h3.1.le).symm, rfl, rfl, rfl,
        by rw [if_neg (by simp [h3.1]), if_neg (by simp [h3.1])]; rfl⟩
  · unfold wallBlockHigh
    split_ifs with h1 h2 h3
    · simpa using min_lt_iff.mpr (Or.inl h1.2)
    · simpa using min_lt_iff.mpr (Or.inr h2.2)
    · simpa using min_lt_iff.mpr (Or.inl h3.2)
    · push_neg at h1 h2 h3
      simp only [Option.isSome_none, Bool.false_eq_true, false_iff, not_lt,
        le_min_iff]
      rcases lt_trichotomy (distHighM wallTop sy) (distHighP wallTop sy) with h | h | h
      · have := h1 h; constructor <;> linarith
      · have := h3 h; constructor <;> linarith
      · have := h2 h; constructor <;> linarith
  · intro blk h
    unfold wallBlockHigh at h
    split_ifs at h with h1 h2 h3 <;> rw [Option.some.injEq] at h <;> subst h
    · exact ⟨(min_eq_left h1.1.le).symm, rfl, rfl, rfl, by rw [if_pos h1.1]; rfl⟩
    · exact ⟨(min_eq_right h2.1.le).symm, rfl, rfl, rfl,
        by rw [if_neg (not_lt.mpr h2.1.le), if_pos h2.1]; rfl⟩
    · exact ⟨(min_eq_left h3.1.le).symm, rfl, rfl, rfl,
        by rw [if_neg (by simp [h3.1]), if_neg (by simp [h3.1])]; rfl⟩

/-- C9: every wall-contact block records the fake colliding body J as
gidJ = gidI + 1 and globalIndexJ = globalIndexI + 1 with oneSide = true;
with global indices 0..n-1, the block of the body holding the largest
globalIndex n-1 records a globalIndexJ that is no existing body, and the
block of any other body records the globalIndex of a different real
body. -/
theorem wallCollision_fake_body {K : Type} [LinearOrderedField K]
    (wallBot wallTop : K) (sy : Syl K) (n : Int) :
    (∀ blk : CBlock K, wallBlockLow wallBot sy = some blk →
        blk.gidJ = blk.gidI + 1 ∧ blk.globalIndexJ = blk.globalIndexI + 1
          ∧ blk.oneSide = true
          ∧ (blk.globalIndexI = n - 1 → ¬ blk.globalIndexJ ≤ n - 1)
          ∧ (blk.globalIndexI < n - 1 →
              blk.globalIndexJ ≤ n - 1 ∧ blk.globalIndexJ ≠ blk.globalIndexI))
      ∧ (∀ blk : CBlock K, wallBlockHigh wallTop sy = some blk →
          blk.gidJ = blk.gidI + 1 ∧ blk.globalIndexJ = blk.globalIndexI + 1
            ∧ blk.oneSide = true
            ∧ (blk.globalIndexI = n - 1 → ¬ blk.globalIndexJ ≤ n - 1)
            ∧ (blk.globalIndexI < n - 1 →
                blk.globalIndexJ ≤ n - 1 ∧ blk.globalIndexJ ≠ blk.globalIndexI)) := by
  constructor
  · intro blk h
    unfold wallBlockLow at h
    split_ifs at h with h1 h2 h3 <;> rw [Option.some.injEq] at h <;> subst h <;>
      exact ⟨rfl, rfl, rfl, by simp only [wallBlock]; omega,
        by simp only [wallBlock]; omega⟩
  · intro blk h
    unfold wallBlockHigh at h
    split_ifs at h with h1 h2 h3 <;> rw [Option.some.injEq] at h <;> subst h <;>
      exact ⟨rfl, rfl, rfl, by simp only [wallBlock]; omega,
        by simp only [wallBlock]; omega⟩

/-- Helper: step 1 of `collectLinkBilateral` emits exactly one block per
body with a declared next link (full block or stub), and none otherwise. -/
theorem collectLinkPass_length {K : Type} [LinearOrderedField K]
    (sqrtFn : K → K) (kappa : K) (lookup : Int → Option (Syl K))
    (bodies : List (Syl K)) :
    (collectLinkPass sqrtFn kappa lookup bodies).length
      = (bodies.filter fun s => s.link.next != linkInvalid).length := by
  induction bodies with
  | nil => rfl
  | cons hd tl ih =>
    by_cases h : hd.link.next = linkInvalid
    · simpa [collectLinkPass, List.filterMap_cons, List.filter_cons, h] using ih
    · cases hl : lookup hd.link.next <;>
        simpa [collectLinkPass, List.filterMap_cons, List.filter_cons, h, hl]
          using ih

/-- C5: a linkage block for two same-rank bodies I, J has
delta0 = |head(I) - tail(J)| - (rI + rJ)(1 + 0.05), initial multiplier
gammaInit = -kappa * delta0, spring constant kappa, normI the vector
from tail(J) to head(I) scaled by the inverse distance, normJ = -normI,
and oneSide = false; linkage blocks are never oneSide on the remote-stub
or remote-completion paths either, and step 1 emits exactly one block
per declared link. -/
theorem collectLinkBilateral_spec (kappa : ℝ) (syI syJ : Syl ℝ)
    (lookup : Int → Option (Syl ℝ)) (bodies : List (Syl ℝ)) :
    ((linkBlockLocal Real.sqrt kappa syI syJ).delta0 =
        Real.sqrt (Vec3.dot (linkHead syI - linkTail syJ)
            (linkHead syI - linkTail syJ))
          - (syI.radius + syJ.radius) * (1 + 5 / 100)
      ∧ (linkBlockLocal Real.sqrt kappa syI syJ).gamma =
          -(kappa * (linkBlockLocal Real.sqrt kappa syI syJ).delta0)
      ∧ (linkBlockLocal Real.sqrt kappa syI syJ).kappa = kappa
      ∧ (linkBlockLocal Real.sqrt kappa syI syJ).normI =
          (1 / Real.sqrt (Vec3.dot (linkHead syI - linkTail syJ)
              (linkHead syI - linkTail syJ)))
            • (linkHead syI - linkTail syJ)
      ∧ (linkBlockLocal Real.sqrt kappa syI syJ).normJ =
          -(linkBlockLocal Real.sqrt kappa syI syJ).normI
      ∧ (linkBlockLocal Real.sqrt kappa syI syJ).oneSide = false)
      ∧ (linkBlockRemoteStub syI).oneSide = false
      ∧ (∀ syNearJ : SylNear ℝ,
          (linkBlockRemote Real.sqrt kappa syI syNearJ).oneSide = false)
      ∧ (collectLinkPass Real.sqrt kappa lookup bodies).length
          = (bodies.filter fun s => s.link.next != linkInvalid).length := by
  refine ⟨⟨?_, ?_, rfl, rfl, rfl, rfl⟩, rfl, fun _ => rfl,
    collectLinkPass_length Real.sqrt kappa lookup bodies⟩
  · show Real.sqrt (Vec3.dot (linkHead syI - linkTail syJ)
        (linkHead syI - linkTail syJ))
      - (syI.radius + syJ.radius) * (105 / 100) = _
    norm_num
  · have hg : (linkBlockLocal Real.sqrt kappa syI syJ).gamma
        = -((linkBlockLocal Real.sqrt kappa syI syJ).delta0) * kappa := rfl
    rw [hg]
    ring

/-- C6: the mobility matrix rows of rod i store 3 entries each (18 per
rod), all its column indices lie in the 6-DOF range of rod i (so no two
distinct rods are coupled), slots 0-8 address the translational 3x3
block and slots 9-17 the rotational 3x3 block in row-major order, the
translational block is dragParaInv * qq + dragPerpInv * (I - qq), and
the assembled rotational block dragRotInv * qq + dragRotInv * (I - qq)
is the identity multiple dragRotInv * I. -/
theorem calcMobMatrix_block_diagonal {K : Type} [LinearOrderedField K]
    (logFn : K → K) (mu length radius : K) (q : Vec3 K) (i : Nat) :
    rowPointers (i + 1) = rowPointers i + 3
      ∧ (∀ k : Fin 18, 6 * i ≤ mobColIdx i k ∧ mobColIdx i k < 6 * i + 6)
      ∧ (∀ k : Fin 9, mobColIdx i (transSlot k) < 6 * i + 3
          ∧ 6 * i + 3 ≤ mobColIdx i (rotSlot k))
      ∧ (∀ k : Fin 9,
          mobValues logFn mu length radius q (transSlot k)
              = MobTrans logFn mu length radius q (slotRow k) (slotCol k)
            ∧ mobValues logFn mu length radius q (rotSlot k)
              = MobRot logFn mu length radius q (slotRow k) (slotCol k))
      ∧ MobTrans logFn mu length radius q
          = dragParaInv logFn mu length radius • qqOf q
            + dragPerpInv logFn mu length radius • (1 - qqOf q)
      ∧ MobRot logFn mu length radius q
          = dragRotInv logFn mu length radius
              • (1 : Matrix (Fin 3) (Fin 3) K) := by
  refine ⟨rfl, ?_, ?_, ?_, rfl, ?_⟩
  · intro k
    fin_cases k <;> constructor <;> simp [mobColIdx]
  · intro k
    fin_cases k <;> constructor <;> simp [mobColIdx, transSlot, rotSlot]
  · intro k
    fin_cases k <;> exact ⟨rfl, rfl⟩
  · have hqq : qqOf q + (1 - qqOf q) = (1 : Matrix (Fin 3) (Fin 3) K) := by
      abel
    unfold MobRot
    rw [← smul_add, hqq]

/-- C7 (counterexample): the drag coefficients are not positive for every
rod with positive length, radius and viscosity: at mu = 1, length = 1,
radius = 1 the geometry factor is b = -1 and the parallel drag
`8 * Pi * length * mu / (2 * b)` is negative. -/
theorem dragPara_neg_thick_rod : dragPara Real.log 1 1 1 < 0 := by
  have harg : (1 : ℝ) * 2 * (1 / 2) / 1 = 1 := by norm_num
  have hb : bGeo Real.log 1 1 = -1 := by
    unfold bGeo
    rw [harg, Real.log_one]
    norm_num
  have hpi : (0 : ℝ) < piLit := by norm_num [piLit]
  unfold dragPara
  rw [hb]
  have he : (8 : ℝ) * piLit * 1 * 1 / (2 * -1) = -(4 * piLit) := by ring
  rw [he]
  linarith

/-- C7 (amended): for every rod with positive viscosity, positive length,
and radius below the slenderness bound length * exp(-1/2) (so that the
geometry factor b is positive), all three drag coefficients dragPara,
dragPerp, dragRot of `calcMobMatrix` are positive. -/
theorem dragCoeffs_pos (mu length radius : ℝ) (hmu : 0 < mu)
    (hl : 0 < length) (hr : 0 < radius)
    (hs : radius < length * Real.exp (-(1 / 2))) :
    0 < dragPara Real.log mu length radius
      ∧ 0 < dragPerp Real.log mu length radius
      ∧ 0 < dragRot Real.log mu length radius := by
  have harg : radius * 2 * (1 / 2) / length = radius / length := by
    field_simp
  have hq : 0 < radius / length := div_pos hr hl
  have hlt : radius / length < Real.exp (-(1 / 2)) := by
    rw [div_lt_iff hl, mul_comm]
    exact hs
  have hlog : Real.log (radius / length) < -(1 / 2) := by
    have h := Real.log_lt_log hq hlt
    rwa [Real.log_exp] at h
  have hb : 0 < bGeo Real.log radius length := by
    unfold bGeo
    rw [harg]
    linarith
  have hpi : (0 : ℝ) < piLit := by norm_num [piLit]
  have hnum : 0 < 8 * piLit * length * mu :=
    mul_pos (mul_pos (mul_pos (by norm_num) hpi) hl) hmu
  refine ⟨?_, ?_, ?_⟩
  · exact div_pos hnum (by linarith)
  · exact div_pos hnum (by linarith)
  · have hnum3 : 0 < 2 * piLit * mu * length * length * length :=
      mul_pos (mul_pos (mul_pos (mul_pos (mul_pos (by norm_num) hpi) hmu) hl) hl) hl
    exact div_pos hnum3 (by linarith)

/-- C7 (witness): the slender rod with mu = 1, length = 1,
radius = exp(-1) meets the hypotheses, and its parallel drag is
positive. -/
theorem dragCoeffs_pos_witness :
    (0 : ℝ) < 1 ∧ 0 < Real.exp (-1)
      ∧ Real.exp (-1) < 1 * Real.exp (-(1 / 2))
      ∧ 0 < dragPara Real.log 1 1 (Real.exp (-1)) :=
  have h4 : Real.exp (-1) < 1 * Real.exp (-(1 / 2)) := by
    rw [one_mul]
    exact Real.exp_lt_exp.mpr (by norm_num)
  ⟨by norm_num, Real.exp_pos _, h4,
    (dragCoeffs_pos 1 1 (Real.exp (-1)) (by norm_num) (by norm_num)
      (Real.exp_pos _) h4).1⟩
